import Mathlib

/-!
Verification of the route-planner animation and export pipeline.

The JavaScript sources are shallowly embedded: JS numbers are modelled by
`ℚ` wherever the code only performs field arithmetic and comparisons, and by
`ℝ` for the path renderer, whose segment lengths use `Math.sqrt`.  A JS value
that may be `undefined` is modelled by `Option`; the result of a JS division
whose denominator is zero (`NaN`/`Infinity` in JS) is modelled by `Option ℚ`
with `none` for the non-finite outcomes.
-/

namespace RoutePlanner

/-! ## Easing library (videoGenerator.js, `easingFunctions`)

The JS object lookup `this.easingFunctions[name]` is modelled as a chain of
string comparisons returning `Option`; `getEasing` models the fallback
`easingFunctions[name] || easingFunctions.linear`. -/

/-- The `easingFunctions` table of `VideoGenerator`, one entry per key of the
JS object literal; any other key yields `none` (JS: `undefined`). -/
def easingFunctions (name : String) : Option (ℚ → ℚ) :=
  if name = "linear" then some (fun t => t)
  else if name = "easeInQuad" then some (fun t => t * t)
  else if name = "easeOutQuad" then some (fun t => t * (2 - t))
  else if name = "easeInOutQuad" then
    some (fun t => if t < 1/2 then 2 * t * t else -1 + (4 - 2 * t) * t)
  else if name = "easeInCubic" then some (fun t => t * t * t)
  else if name = "easeOutCubic" then
    -- JS `(--t) * t * t + 1` first decrements `t`, so this is `(t-1)^3 + 1`
    some (fun t => (t - 1) * (t - 1) * (t - 1) + 1)
  else if name = "easeInOutCubic" then
    some (fun t => if t < 1/2 then 4 * t * t * t
                   else (t - 1) * (2 * t - 2) * (2 * t - 2) + 1)
  else if name = "easeInOut" then
    some (fun t => if t < 1/2 then 2 * t * t else -1 + (4 - 2 * t) * t)
  else none

/-- The keys of the `easingFunctions` object literal. -/
def supportedEasingNames : List String :=
  ["linear", "easeInQuad", "easeOutQuad", "easeInOutQuad",
   "easeInCubic", "easeOutCubic", "easeInOutCubic", "easeInOut"]

/-- Models `this.easingFunctions[this.easingFunction] || this.easingFunctions.linear`
from `drawRoutesAtProgress`. -/
def getEasing (name : String) : ℚ → ℚ :=
  (easingFunctions name).getD (fun t => t)

/-! ## Route timing resolver (videoGenerator.js, `drawRoutesAtProgress`) -/

/-- The `animation` field of a route: `delay` and `duration` may be absent
(`undefined`, modelled by `none`). -/
structure RouteAnim where
  delay : Option ℚ
  duration : Option ℚ

/-- JS `v || d` on an optional number: the default is taken when the value is
absent (`undefined`) or equal to `0` (both are falsy in JS). -/
def jsOrDefault (v : Option ℚ) (d : ℚ) : ℚ :=
  match v with
  | none => d
  | some x => if x = 0 then d else x

/-- The raw per-route progress of `drawRoutesAtProgress`: given the (already
eased) global progress `p`, the route is skipped (`none`) when
`p < routeStart`; otherwise `Math.min(1, (p - routeStart) / routeDuration)`
is the local progress handed (after easing) to `drawRouteProgress`.
`routeStart = (animation.delay || 0) / totalDuration`,
`routeDuration = (animation.duration || 3000) / totalDuration`. -/
def rawRouteProgress (anim : RouteAnim) (totalDuration p : ℚ) : Option ℚ :=
  let routeStart := jsOrDefault anim.delay 0 / totalDuration
  let routeDuration := jsOrDefault anim.duration 3000 / totalDuration
  if routeStart ≤ p then some (min 1 ((p - routeStart) / routeDuration)) else none

/-- The resolved local progress of a route: the raw progress when the route's
window has been entered, and `0` for a route that is skipped because the
global progress has not reached `routeStart` (such a route is not drawn at
all, i.e. drawn at local progress `0`). -/
def localProgress (anim : RouteAnim) (totalDuration p : ℚ) : ℚ :=
  (rawRouteProgress anim totalDuration p).getD 0

/-! ## Timeline state (videoGenerator.js, `VideoGenerator` fields and
`seekTo` / `stopPreview` / `pausePreview` / `playPreview` / `startAnimation`) -/

/-- The timeline-relevant mutable fields of `VideoGenerator`. -/
structure VideoGeneratorState where
  currentTime : ℚ
  totalDuration : ℚ
  isPlaying : Bool
  playbackSpeed : ℚ
  isExporting : Bool

/-- Models `seekTo`: `currentTime = Math.max(0, Math.min(time, totalDuration))`. -/
def seekTo (s : VideoGeneratorState) (time : ℚ) : VideoGeneratorState :=
  { s with currentTime := max 0 (min time s.totalDuration) }

/-- Models `stopPreview`: playback stops and `currentTime` resets to `0`. -/
def stopPreview (s : VideoGeneratorState) : VideoGeneratorState :=
  { s with isPlaying := false, currentTime := 0 }

/-- Models `pausePreview`: playback stops, `currentTime` is frozen. -/
def pausePreview (s : VideoGeneratorState) : VideoGeneratorState :=
  { s with isPlaying := false }

/-- Models `playPreview`: a no-op while already playing, otherwise starts
playback. -/
def playPreview (s : VideoGeneratorState) : VideoGeneratorState :=
  if s.isPlaying then s else { s with isPlaying := true }

/-- Models one execution of `animate` inside `startAnimation`.  `elapsed`
stands for `Date.now() - startTime`, which is nonnegative since `startTime`
was computed at or before the current instant.  The body runs only while
playing; it sets `currentTime = elapsed * playbackSpeed` and, on reaching the
end, clamps it to `totalDuration` and stops. -/
def animateTick (s : VideoGeneratorState) (elapsed : ℚ) : VideoGeneratorState :=
  if s.isPlaying then
    let t := elapsed * s.playbackSpeed
    if s.totalDuration ≤ t then
      { s with currentTime := s.totalDuration, isPlaying := false }
    else { s with currentTime := t }
  else s

/-- The invariant claimed for the timeline: `0 ≤ currentTimeMs ≤ totalDurationMs`. -/
def timelineInvariant (s : VideoGeneratorState) : Prop :=
  0 ≤ s.currentTime ∧ s.currentTime ≤ s.totalDuration

/-- JS division `a / b` restricted to finite results: `none` models the
non-finite values (`NaN` when `a = b = 0`, `±Infinity` otherwise) produced by
a zero denominator. -/
def jsDiv (a b : ℚ) : Option ℚ :=
  if b = 0 then none else some (a / b)

/-- The global progress computed by `updatePreview` (and identically inside
`seekTo` before calling `renderFrame`): `this.currentTime / this.totalDuration`,
with no guard on `totalDuration`. -/
def computeProgress (s : VideoGeneratorState) : Option ℚ :=
  jsDiv s.currentTime s.totalDuration

/-! ## Frame producer (videoGenerator.js, `captureAnimationFrames`) -/

/-- The frame rate hard-coded at the top of `captureAnimationFrames`
(`const fps = 30`). -/
def captureFps : ℚ := 30

/-- `totalFrames = Math.ceil((totalDuration / 1000) * fps)` in
`captureAnimationFrames`, as a frame count. -/
def totalFrames (fps totalDuration : ℚ) : ℕ :=
  (Int.ceil (totalDuration / 1000 * fps)).toNat

/-- The sample time of frame `i`: `timeMs = (frameIndex / fps) * 1000`. -/
def frameTimeMs (fps : ℚ) (i : ℕ) : ℚ :=
  (i : ℚ) / fps * 1000

/-- The per-frame progress: `Math.min(timeMs / totalDuration, 1.0)`.
The denominator is nonzero whenever any frame exists (`totalFrames > 0`
forces `totalDuration > 0` for positive `fps`), so plain division is exact. -/
def frameProgress (fps totalDuration : ℚ) (i : ℕ) : ℚ :=
  min (frameTimeMs fps i / totalDuration) 1

/-- The ordered (time, progress) samples produced by the capture loop of
`captureAnimationFrames`. -/
def captureFrames (fps totalDuration : ℚ) : List (ℚ × ℚ) :=
  (List.range (totalFrames fps totalDuration)).map
    (fun i => (frameTimeMs fps i, frameProgress fps totalDuration i))

/-! ## Export-capture state effects (videoGenerator.js, `captureAnimationFrames`)

The loop mutates `currentTime` and the surrounding `try`/`finally` toggles
`isExporting` and restores the timeline; the possible outcomes of one
invocation are modelled explicitly. -/

/-- How one `captureAnimationFrames()` invocation ends: the pre-`try` throw
when no preview canvas exists, normal completion of the loop, or an exception
thrown after `k` frames were processed. -/
inductive CaptureOutcome where
  | noCanvas
  | ok
  | failAfter (k : ℕ)

/-- The state reached inside the `try` body after `k` loop iterations:
`isExporting` was set, `pausePreview()` ran, and `currentTime` holds the last
assigned `timeMs` (it is untouched when no iteration ran). -/
def captureBodyState (s : VideoGeneratorState) (k : ℕ) : VideoGeneratorState :=
  let s1 := pausePreview { s with isExporting := true }
  match k with
  | 0 => s1
  | j + 1 => { s1 with currentTime := frameTimeMs captureFps j }

/-- The `finally` block: clear `isExporting`, restore the saved
`originalTime`, and resume playback via `playPreview()` exactly when
`originalPlaying` was set (otherwise a frame is re-rendered, which changes no
timeline field). -/
def captureFinallyRestore (s0 sBody : VideoGeneratorState) : VideoGeneratorState :=
  let s1 := { sBody with isExporting := false, currentTime := s0.currentTime }
  if s0.isPlaying then playPreview s1 else s1

/-- The timeline state after `captureAnimationFrames()` returns or throws.
A missing preview canvas throws before any field is mutated; every other
outcome runs the `finally` restoration. -/
def captureAnimationFramesState (s : VideoGeneratorState) (o : CaptureOutcome) :
    VideoGeneratorState :=
  match o with
  | .noCanvas => s
  | .ok => captureFinallyRestore s (captureBodyState s (totalFrames captureFps s.totalDuration))
  | .failAfter k => captureFinallyRestore s (captureBodyState s k)

/-- The early return of `drawProgressiveWaypoints`: waypoint markers are
suppressed exactly when `isExporting` is set. -/
def waypointMarkersSuppressed (s : VideoGeneratorState) : Bool :=
  s.isExporting

/-! ## Path renderer (videoGenerator.js, `drawRouteProgress` / `drawPathToLength`)

Segment lengths use `Math.sqrt`, so this part of the embedding lives in `ℝ`. -/

/-- A 2D point `{x, y}`. -/
structure Pt where
  x : ℝ
  y : ℝ

/-- Euclidean segment length, `Math.sqrt((to.x-fro.x)^2 + (to.y-fro.y)^2)`. -/
noncomputable def segLength (p q : Pt) : ℝ :=
  Real.sqrt ((q.x - p.x) ^ 2 + (q.y - p.y) ^ 2)

/-- One entry of the `segments` array built by `drawRouteProgress`; the JS
fields `from` and `to` are Lean keywords and are rendered `fro`/`dst`. -/
structure Seg where
  start : ℝ
  length : ℝ
  fro : Pt
  dst : Pt

/-- The segment-building loop of `drawRouteProgress`: consecutive waypoint
pairs with the running cumulative length `acc` (the JS `totalLength`
accumulator). -/
noncomputable def buildSegments : List Pt → ℝ → List Seg
  | p :: q :: rest, acc =>
      { start := acc, length := segLength p q, fro := p, dst := q }
        :: buildSegments (q :: rest) (acc + segLength p q)
  | _, _ => []

/-- The final value of the JS `totalLength` accumulator: the sum of all
segment lengths. -/
noncomputable def sumSegLengths (segs : List Seg) : ℝ :=
  (segs.map Seg.length).sum

/-- Linear interpolation along a segment,
`from + (to - from) * segmentProgress` componentwise. -/
noncomputable def lerpPt (a b : Pt) (s : ℝ) : Pt :=
  { x := a.x + (b.x - a.x) * s, y := a.y + (b.y - a.y) * s }

/-- Models `drawPathToLength` as the list of canvas points traversed
(`moveTo` then `lineTo`s): full segments while
`currentLength + segment.length <= targetLength`, then one partial segment by
linear interpolation, then the loop breaks. -/
noncomputable def drawPathToLength : List Seg → ℝ → ℝ → Bool → List Pt
  | [], _, _, _ => []
  | seg :: rest, targetLength, currentLength, pathStarted =>
    if currentLength + seg.length ≤ targetLength then
      (if pathStarted then [] else [seg.fro]) ++
        seg.dst :: drawPathToLength rest targetLength (currentLength + seg.length) true
    else
      (if pathStarted then [] else [seg.fro]) ++
        [lerpPt seg.fro seg.dst ((targetLength - currentLength) / seg.length)]

/-- Length of a drawn polyline: the sum of the Euclidean distances between
consecutive traversed points. -/
noncomputable def polylineLength : List Pt → ℝ
  | p :: q :: rest => segLength p q + polylineLength (q :: rest)
  | _ => 0

/-- The `mapTransform` applied by `drawRouteProgress` before measuring and
drawing: `wp * scale + offset` componentwise. -/
structure MapTransform where
  scale : ℝ
  offsetX : ℝ
  offsetY : ℝ

/-- One transformed waypoint,
`{x: wp.x * scale + offsetX, y: wp.y * scale + offsetY}`. -/
noncomputable def transformWaypoint (mt : MapTransform) (wp : Pt) : Pt :=
  { x := wp.x * mt.scale + mt.offsetX, y := wp.y * mt.scale + mt.offsetY }

/-- The running `totalLength` computed by `drawRouteProgress` over the
transformed waypoints. -/
noncomputable def routeTotalLength (mt : MapTransform) (waypoints : List Pt) : ℝ :=
  sumSegLengths (buildSegments (waypoints.map (transformWaypoint mt)) 0)

/-- The stroke emitted by `drawRouteProgress` at a given local progress: an
early return for fewer than two waypoints, no stroke at all when
`progress <= 0`, otherwise `drawPathToLength(segments, totalLength * progress)`.
(The completion overdraw at `progress >= 1` re-strokes the same full
polyline and adds no further points.) -/
noncomputable def drawRouteStroke (mt : MapTransform) (waypoints : List Pt) (progress : ℝ) :
    List Pt :=
  if waypoints.length < 2 then []
  else
    let segments := buildSegments (waypoints.map (transformWaypoint mt)) 0
    let drawLength := sumSegLengths segments * progress
    if 0 < progress then drawPathToLength segments drawLength 0 false else []

/-- The well-formedness of a segment list as produced by the building loop:
starting from pen position `p`, each segment starts where the previous one
ended and records its own Euclidean length. -/
def SegsFrom : Pt → List Seg → Prop
  | _, [] => True
  | p, s :: rest => s.fro = p ∧ s.length = segLength s.fro s.dst ∧ SegsFrom s.dst rest

/-! ## Server submit endpoint and job store
(routes/export router `router.post('/video')` and `utils/videoProcessor.js`,
`VideoProcessor.createVideoJob` / `processVideo`). -/

/-- One route as carried in a request body; only the fields the validation
logic looks at are modelled. -/
structure RouteData where
  waypointCount : ℕ
  visible : Bool

/-- A request body for `POST /api/export/video`.  `routes = none` models a
missing or non-array `routes` value (rejected by
`!routes || !Array.isArray(routes)`); `mapImage = none` models a missing or
falsy `mapImage`. -/
structure VideoRequestBody where
  routes : Option (List RouteData)
  mapImage : Option ℕ

/-- A `VideoProcessor` job as stored in `this.jobs`. -/
structure Job where
  id : ℕ
  status : String
  progress : ℚ
  routes : List RouteData
  hasMapImage : Bool
  errorMessage : Option String

/-- The job store: `this.jobs`, keyed here by position with `id` the insertion
index (a stand-in for the `uuidv4()` identifier, which is fresh per call). -/
def JobStore := List Job

/-- `VideoProcessor.createVideoJob`: allocate a fresh id, insert the job with
`status: 'queued'`, `progress: 0`, and return the id synchronously (the actual
processing is scheduled asynchronously). -/
def createVideoJob (store : JobStore) (routes : List RouteData)
    (hasMapImage : Bool) : ℕ × JobStore :=
  let jobId := List.length store
  (jobId, List.concat store
    { id := jobId, status := "queued", progress := 0, routes := routes,
      hasMapImage := hasMapImage, errorMessage := none })

/-- The validation phase of `VideoProcessor.processVideo`, run asynchronously
after the job was created: the job moves to `processing`, then errors when
`!routes || routes.length === 0` or when the map image is missing; otherwise
it continues into generation. -/
def processVideoValidate (job : Job) : Job :=
  let job1 := { job with status := "processing", progress := 10 }
  if job1.routes.length = 0 then
    { job1 with status := "error",
                errorMessage := some "No routes provided for video generation" }
  else if job1.hasMapImage = false then
    { job1 with status := "error",
                errorMessage := some "No map image provided for video generation" }
  else job1

/-- A response of the `POST /api/export/video` handler: an HTTP 400 with an
error string, or the success payload carrying `jobId`. -/
inductive VideoResponse where
  | badRequest (error : String)
  | ok (jobId : ℕ)

/-- The `router.post('/video')` handler: rejects a missing/non-array `routes`
value and a missing `mapImage`, then calls
`videoProcessor.generateVideo(videoData)` (which is `createVideoJob`) and
responds with the returned `jobId`. -/
def routerPostVideo (body : VideoRequestBody) (store : JobStore) :
    VideoResponse × JobStore :=
  match body.routes with
  | none => (VideoResponse.badRequest "Invalid routes data", store)
  | some routes =>
    match body.mapImage with
    | none => (VideoResponse.badRequest "Map image is required", store)
    | some _ =>
      let r := createVideoJob store routes true
      (VideoResponse.ok r.1, r.2)

/-- The client-side validation at the top of `exportVideo` (videoGenerator.js):
it throws before any frame is captured when the map image is missing or when
no visible route with at least two waypoints exists.  `Except.error` carries
the thrown message. -/
def exportVideoValidate (hasMap : Bool) (routes : List RouteData) :
    Except String (List RouteData) :=
  if hasMap = false then
    Except.error "No map image available for export. Please upload a map first."
  else
    let filtered := routes.filter (fun r => r.visible && decide (2 ≤ r.waypointCount))
    if filtered.length = 0 then
      Except.error "No visible routes with waypoints found for export."
    else Except.ok filtered

/-! ## Client encoding chain (videoGenerator.js, `createVideoFromFrames` /
`createFramesZip`) -/

/-- A produced artifact blob: its MIME kind and byte size. -/
structure VideoBlob where
  mime : String
  size : ℕ

/-- `createFramesZip`: the always-succeeding last resort, a JSON blob
describing the captured frames. -/
def createFramesZip (frames : List String) : VideoBlob :=
  { mime := "application/json", size := frames.length }

/-- `createVideoFromFrames`: try `createWebMFromFrames`; accept its blob only
when `size > 1000`; on exception or a too-small blob, try
`createVideoFromFramesAlternative`; on exception fall back to
`createFramesZip`.  The two external attempts are environment outcomes passed
in as `Except` values (an `error` models the promise rejecting). -/
def createVideoFromFrames (frames : List String)
    (webmAttempt altAttempt : Except String VideoBlob) : VideoBlob :=
  let fallback :=
    match altAttempt with
    | Except.ok b => b
    | Except.error _ => createFramesZip frames
  match webmAttempt with
  | Except.ok b => if 1000 < b.size then b else fallback
  | Except.error _ => fallback

/-! ## Branch routes (MapCanvas `createBranchFromWaypoint`) -/

/-- The `animation` object of a freshly created branch route. -/
structure BranchAnimation where
  duration : ℚ
  easing : String
  delay : ℚ

/-- The animation object built by `createBranchFromWaypoint`:
`delay: sourceRoute.animation?.delay || 0 + 500`.  JS parses this as
`delay || (0 + 500)`, so the parent's delay wins whenever it is truthy. -/
def createBranchAnimation (parentDelay : Option ℚ) : BranchAnimation :=
  { duration := 3000, easing := "ease-in-out",
    delay := jsOrDefault parentDelay (0 + 500) }

/-- The `routeStart` computed by `drawRoutesAtProgress`:
`(route.animation?.delay || 0) / this.totalDuration`. -/
def routeStartOf (anim : RouteAnim) (totalDuration : ℚ) : ℚ :=
  jsOrDefault anim.delay 0 / totalDuration

/-- The `routeEnd` computed by `drawRoutesAtProgress`:
`routeStart + (route.animation?.duration || 3000) / this.totalDuration`. -/
def routeEndOf (anim : RouteAnim) (totalDuration : ℚ) : ℚ :=
  routeStartOf anim totalDuration + jsOrDefault anim.duration 3000 / totalDuration

/-- The property the spec demands of every easing function: fixed endpoints
and monotonicity on `[0, 1]`. -/
def validEasing (f : ℚ → ℚ) : Prop :=
  f 0 = 0 ∧ f 1 = 1 ∧ ∀ s t : ℚ, 0 ≤ s → s ≤ t → t ≤ 1 → f s ≤ f t

end RoutePlanner

namespace RoutePlanner

/-! ## Theorems -/

lemma capture_restore_fields (s : VideoGeneratorState) (k : ℕ) :
    (captureFinallyRestore s (captureBodyState s k)).currentTime = s.currentTime ∧
    (captureFinallyRestore s (captureBodyState s k)).isExporting = false ∧
    (captureFinallyRestore s (captureBodyState s k)).isPlaying = s.isPlaying ∧
    (captureFinallyRestore s (captureBodyState s k)).totalDuration = s.totalDuration ∧
    (captureFinallyRestore s (captureBodyState s k)).playbackSpeed = s.playbackSpeed := by
  cases k <;> cases hp : s.isPlaying <;>
    simp [captureBodyState, captureFinallyRestore, pausePreview, playPreview, hp]

/-- C9: the branch-route delay is `parentDelay || (0 + 500)`: the parent's
delay whenever it is truthy (nonzero), and `500` when the parent delay is
zero or unset. -/
theorem branch_delay_spec :
    ∀ parentDelay : ℚ,
      (parentDelay ≠ 0 →
        (createBranchAnimation (some parentDelay)).delay = parentDelay) ∧
      (createBranchAnimation (some 0)).delay = 500 ∧
      (createBranchAnimation none).delay = 500 := by
  intro d
  refine ⟨fun h => ?_, ?_, ?_⟩
  · simp [createBranchAnimation, jsOrDefault, h]
  · norm_num [createBranchAnimation, jsOrDefault]
  · norm_num [createBranchAnimation, jsOrDefault]

theorem branch_delay_witness :
    (1200 : ℚ) ≠ 0 ∧ (createBranchAnimation (some 1200)).delay = 1200 :=
  ⟨by norm_num, (branch_delay_spec 1200).1 (by norm_num)⟩

/-- C7: the timeline invariant `0 ≤ currentTimeMs ≤ totalDurationMs` is
preserved by `seekTo` (which clamps in any state), by `stopPreview` (which
resets `currentTime` to `0`), and by the playing tick of `startAnimation`,
which clamps `currentTime` to `totalDuration` on reaching the end. -/
theorem timeline_invariant_preserved :
    ∀ (s : VideoGeneratorState) (time elapsed : ℚ),
      timelineInvariant s → 0 ≤ elapsed → 0 ≤ s.playbackSpeed →
      timelineInvariant (seekTo s time) ∧
      timelineInvariant (stopPreview s) ∧ (stopPreview s).currentTime = 0 ∧
      timelineInvariant (animateTick s elapsed) ∧
      (s.isPlaying = true → s.totalDuration ≤ elapsed * s.playbackSpeed →
        (animateTick s elapsed).currentTime = s.totalDuration) := by
  intro s time elapsed hinv helapsed hspeed
  obtain ⟨h0, h1⟩ := hinv
  have htot : 0 ≤ s.totalDuration := h0.trans h1
  refine ⟨⟨le_max_left _ _, max_le htot (min_le_right _ _)⟩,
          ⟨le_refl _, htot⟩, rfl, ?_, ?_⟩
  · rcases hp : s.isPlaying with _ | _
    · simpa [animateTick, hp, timelineInvariant] using ⟨h0, h1⟩
    · rcases le_or_lt s.totalDuration (elapsed * s.playbackSpeed) with hend | hend
      · simp [animateTick, hp, timelineInvariant, hend, htot]
      · have hne := not_le.2 hend
        simp only [animateTick, hp, if_true, timelineInvariant]
        rw [if_neg hne]
        exact ⟨mul_nonneg helapsed hspeed, hend.le⟩
  · intro hp hend
    simp [animateTick, hp, hend]

theorem timeline_invariant_witness :
    timelineInvariant { currentTime := 2000, totalDuration := 5000,
                        isPlaying := true, playbackSpeed := 1, isExporting := false } ∧
    timelineInvariant (seekTo { currentTime := 2000, totalDuration := 5000,
                                isPlaying := true, playbackSpeed := 1,
                                isExporting := false } 9999) := by
  have h := timeline_invariant_preserved
    { currentTime := 2000, totalDuration := 5000, isPlaying := true,
      playbackSpeed := 1, isExporting := false } 9999 3
    ⟨by norm_num, by norm_num⟩ (by norm_num) (by norm_num)
  exact ⟨⟨by norm_num, by norm_num⟩, h.1⟩

/-- C8 counterexample: with `totalDurationMs = 0` (and `currentTimeMs = 0`,
the only value the clamp allows) the unguarded JS division
`currentTime / totalDuration` is `0 / 0 = NaN`, not the claimed `0`: the
computed progress has no finite value. -/
theorem progress_unguarded_at_zero_duration :
    computeProgress { currentTime := 0, totalDuration := 0, isPlaying := false,
                      playbackSpeed := 1, isExporting := false } = none ∧
    (none : Option ℚ) ≠ some 0 := by
  constructor
  · simp [computeProgress, jsDiv]
  · simp

/-- C8 amended: the global progress `currentTimeMs / totalDurationMs` is
well-defined whenever `totalDurationMs ≠ 0`; the division is not guarded, so
when `totalDurationMs = 0` it produces no finite progress value (JS `NaN`)
rather than the claimed `0`. -/
theorem computeProgress_spec :
    ∀ s : VideoGeneratorState,
      (s.totalDuration ≠ 0 →
        computeProgress s = some (s.currentTime / s.totalDuration)) ∧
      (s.totalDuration = 0 → computeProgress s = none) := by
  intro s
  constructor <;> intro h <;> simp [computeProgress, jsDiv, h]

theorem computeProgress_witness :
    (5000 : ℚ) ≠ 0 ∧
    computeProgress { currentTime := 1000, totalDuration := 5000,
                      isPlaying := false, playbackSpeed := 1,
                      isExporting := false } = some (1000 / 5000) :=
  ⟨by norm_num,
   (computeProgress_spec { currentTime := 1000, totalDuration := 5000,
                           isPlaying := false, playbackSpeed := 1,
                           isExporting := false }).1 (by norm_num)⟩

/-- C6: for positive `fps` the capture loop produces exactly
`ceil(fps * totalDurationMs / 1000)` frames; frame `i` is sampled at
`timeMs = i * 1000 / fps`, which stays strictly below `totalDurationMs`, and
the clamped progress `min(timeMs / totalDurationMs, 1)` never exceeds `1`. -/
theorem captureFrames_spec :
    ∀ fps totalDuration : ℚ, 0 < fps → 0 ≤ totalDuration →
      (captureFrames fps totalDuration).length
          = (Int.ceil (fps * totalDuration / 1000)).toNat ∧
      ∀ i : ℕ, i < totalFrames fps totalDuration →
        frameTimeMs fps i = (i : ℚ) * 1000 / fps ∧
        frameTimeMs fps i < totalDuration ∧
        frameProgress fps totalDuration i ≤ 1 := by
  intro fps totalDuration hfps _htot
  constructor
  · simp only [captureFrames, List.length_map, List.length_range, totalFrames]
    rw [show totalDuration / 1000 * fps = fps * totalDuration / 1000 by ring]
  · intro i hi
    refine ⟨by rw [frameTimeMs]; ring, ?_, min_le_right _ _⟩
    have hi' : (i : ℚ) < totalDuration / 1000 * fps := by
      have h1 : (i : ℤ) < Int.ceil (totalDuration / 1000 * fps) :=
        Int.lt_toNat.mp hi
      exact_mod_cast Int.lt_ceil.mp h1
    rw [frameTimeMs, div_mul_eq_mul_div, div_lt_iff₀ hfps]
    nlinarith

theorem captureFrames_witness :
    (0 : ℚ) < 30 ∧ (0 : ℚ) ≤ 1000 ∧ (captureFrames 30 1000).length = 30 := by
  refine ⟨by norm_num, by norm_num, ?_⟩
  have h := (captureFrames_spec 30 1000 (by norm_num) (by norm_num)).1
  rw [h]
  norm_num
  decide

/-- C1 counterexample: a route with `durationMs = 0` does not jump from `0`
to `1` at `routeStart`.  Under `totalDurationMs = 10000`, `delayMs = 0`,
`durationMs = 0`, the claimed behaviour at global progress `3/20` is local
progress `1` (we are past `routeEnd = routeStart`), but the code substitutes
the default duration (`duration || 3000`) and resolves local progress `1/2`. -/
theorem zero_duration_route_no_jump :
    localProgress { delay := some 0, duration := some 0 } 10000 (3/20) = 1/2 ∧
    (1 : ℚ)/2 ≠ 1 ∧ (1 : ℚ)/2 ≠ 0 := by
  refine ⟨?_, by norm_num, by norm_num⟩
  norm_num [localProgress, rawRouteProgress, jsOrDefault]

/-- C1 amended: with `routeStart = (delayMs || 0) / totalDurationMs` and
`routeEnd = routeStart + (durationMs || 3000) / totalDurationMs` — i.e. the
effective duration is `durationMs` when nonzero and the `3000` default when
zero or unset — the resolved local progress is `0` for every global progress
`p` at or before `routeStart` (strictly before it the route is skipped), `1`
for every `p` at or after `routeEnd`, and
`(p - routeStart) / (routeEnd - routeStart)` strictly in between.  The
effective duration is never `0`, so `routeStart = routeEnd` cannot occur and
no zero-duration jump exists. -/
theorem localProgress_window_spec :
    ∀ (anim : RouteAnim) (totalDuration p : ℚ),
      0 < totalDuration → 0 < jsOrDefault anim.duration 3000 →
      (p ≤ routeStartOf anim totalDuration →
        localProgress anim totalDuration p = 0) ∧
      (routeEndOf anim totalDuration ≤ p →
        localProgress anim totalDuration p = 1) ∧
      (routeStartOf anim totalDuration < p → p < routeEndOf anim totalDuration →
        localProgress anim totalDuration p
          = (p - routeStartOf anim totalDuration)
              / (routeEndOf anim totalDuration - routeStartOf anim totalDuration)) := by
  intro anim totalDuration p htot hdur
  set d := jsOrDefault anim.delay 0 with hd
  set D := jsOrDefault anim.duration 3000 with hD
  have hDT : 0 < D / totalDuration := div_pos hdur htot
  have hstart : routeStartOf anim totalDuration = d / totalDuration := rfl
  have hend : routeEndOf anim totalDuration = d / totalDuration + D / totalDuration := rfl
  refine ⟨fun hle => ?_, fun hge => ?_, fun hlt1 hlt2 => ?_⟩
  · rw [hstart] at hle
    unfold localProgress rawRouteProgress
    rw [← hd, ← hD]
    rcases lt_or_eq_of_le hle with hlt | heq
    · rw [if_neg (not_le.2 hlt)]
      rfl
    · rw [if_pos heq.ge, ← heq]
      simp
  · rw [hend] at hge
    have hstartle : d / totalDuration ≤ p := by linarith
    unfold localProgress rawRouteProgress
    rw [← hd, ← hD, if_pos hstartle]
    have hq : 1 ≤ (p - d / totalDuration) / (D / totalDuration) :=
      (one_le_div hDT).mpr (by linarith)
    simp [min_eq_left hq]
  · rw [hstart] at hlt1
    rw [hend] at hlt2
    unfold localProgress rawRouteProgress
    rw [← hd, ← hD, if_pos hlt1.le]
    have hq : (p - d / totalDuration) / (D / totalDuration) < 1 :=
      (div_lt_one hDT).mpr (by linarith)
    rw [min_eq_right hq.le]
    rw [hstart, hend]
    simp

theorem localProgress_window_witness :
    localProgress { delay := some 0, duration := some 5000 } 10000 (1/4) = 1/2 ∧
    localProgress { delay := some 5000, duration := some 5000 } 10000 (1/4) = 0 := by
  constructor
  · have h := (localProgress_window_spec { delay := some 0, duration := some 5000 }
      10000 (1/4) (by norm_num) (by norm_num [jsOrDefault])).2.2
    rw [h (by norm_num [routeStartOf, jsOrDefault])
          (by norm_num [routeEndOf, routeStartOf, jsOrDefault])]
    norm_num [routeStartOf, routeEndOf, jsOrDefault]
  · exact (localProgress_window_spec { delay := some 5000, duration := some 5000 }
      10000 (1/4) (by norm_num) (by norm_num [jsOrDefault])).1
      (by norm_num [routeStartOf, jsOrDefault])

/-- C10: whether `captureAnimationFrames` completes or throws (before the
`try` for a missing canvas, or after any number of captured frames), the
timeline is restored: `currentTime` equals its pre-capture value, the
`isExporting` flag (the waypoint-marker suppressor) is false again, and
playback is on exactly when it was on before the capture. -/
theorem capture_restores_timeline :
    ∀ (s : VideoGeneratorState) (o : CaptureOutcome), s.isExporting = false →
      (captureAnimationFramesState s o).currentTime = s.currentTime ∧
      (captureAnimationFramesState s o).isExporting = false ∧
      waypointMarkersSuppressed (captureAnimationFramesState s o) = false ∧
      (captureAnimationFramesState s o).isPlaying = s.isPlaying ∧
      (captureAnimationFramesState s o).totalDuration = s.totalDuration ∧
      (captureAnimationFramesState s o).playbackSpeed = s.playbackSpeed := by
  intro s o hexp
  cases o with
  | noCanvas =>
      simp [captureAnimationFramesState, waypointMarkersSuppressed, hexp]
  | ok =>
      obtain ⟨h1, h2, h3, h4, h5⟩ :=
        capture_restore_fields s (totalFrames captureFps s.totalDuration)
      exact ⟨h1, h2, h2, h3, h4, h5⟩
  | failAfter k =>
      obtain ⟨h1, h2, h3, h4, h5⟩ := capture_restore_fields s k
      exact ⟨h1, h2, h2, h3, h4, h5⟩

theorem capture_restores_timeline_witness :
    ({ currentTime := 1234, totalDuration := 5000, isPlaying := true,
       playbackSpeed := 1, isExporting := false } : VideoGeneratorState).isExporting
      = false ∧
    (captureAnimationFramesState
        { currentTime := 1234, totalDuration := 5000, isPlaying := true,
          playbackSpeed := 1, isExporting := false }
        (CaptureOutcome.failAfter 7)).currentTime = 1234 := by
  refine ⟨rfl, ?_⟩
  have h := capture_restores_timeline
    { currentTime := 1234, totalDuration := 5000, isPlaying := true,
      playbackSpeed := 1, isExporting := false }
    (CaptureOutcome.failAfter 7) rfl
  exact h.1

/-- C4 counterexample: a submit request whose route list is empty (but whose
map image is present) is not rejected: `router.post('/video')` only rejects a
missing/non-array `routes` value, so `createVideoJob` runs, a job is created
in the store and its id is returned to the caller. -/
theorem empty_routes_submit_creates_job :
    (routerPostVideo { routes := some [], mapImage := some 0 } []).1
        = VideoResponse.ok 0 ∧
    (routerPostVideo { routes := some [], mapImage := some 0 } []).2.length = 1 :=
  ⟨rfl, rfl⟩

/-- C4 amended: a submit request missing the background image is rejected
synchronously with a descriptive error and no job is created; a submit
request with an empty route list, however, passes the endpoint's validation:
a job in state `queued` is created, its id is returned, and only the
asynchronous processing step then moves that job to `error`
(`No routes provided for video generation`).  The client-side `exportVideo`
does fail fast on an empty route list and on a missing map image. -/
theorem submit_validation_spec :
    ∀ (store : JobStore) (img : ℕ) (routesOpt : Option (List RouteData))
      (clientRoutes : List RouteData),
      (routerPostVideo { routes := some [], mapImage := some img } store).1
          = VideoResponse.ok (List.length store) ∧
      (routerPostVideo { routes := some [], mapImage := some img } store).2
          = List.concat store
              { id := List.length store, status := "queued", progress := 0,
                routes := [], hasMapImage := true, errorMessage := none } ∧
      (processVideoValidate
          { id := List.length store, status := "queued", progress := 0,
            routes := [], hasMapImage := true, errorMessage := none }).status
          = "error" ∧
      (processVideoValidate
          { id := List.length store, status := "queued", progress := 0,
            routes := [], hasMapImage := true, errorMessage := none }).errorMessage
          = some "No routes provided for video generation" ∧
      (routerPostVideo { routes := routesOpt, mapImage := none } store).2 = store ∧
      ((routerPostVideo { routes := routesOpt, mapImage := none } store).1
          = VideoResponse.badRequest "Map image is required" ∨
       (routerPostVideo { routes := routesOpt, mapImage := none } store).1
          = VideoResponse.badRequest "Invalid routes data") ∧
      exportVideoValidate true []
          = Except.error "No visible routes with waypoints found for export." ∧
      exportVideoValidate false clientRoutes
          = Except.error
              "No map image available for export. Please upload a map first." := by
  intro store img routesOpt clientRoutes
  refine ⟨rfl, rfl, rfl, rfl, ?_, ?_, rfl, rfl⟩ <;>
    cases routesOpt <;> simp [routerPostVideo]

/-- C5 counterexample: when the WebM tier fails, `createVideoFromFrames` does
not surface an error — it retries the alternative tier, and when that also
fails it returns the `createFramesZip` JSON artifact, so the export job never
transitions to `error` because of a failed tier. -/
theorem encoder_retry_ladder :
    createVideoFromFrames ["frame0"]
        (Except.error "MediaRecorder error") (Except.error "alternative failed")
      = createFramesZip ["frame0"] ∧
    (createFramesZip ["frame0"]).mime = "application/json" :=
  ⟨rfl, rfl⟩

/-- C5 amended: the client encoding pipeline is a per-job retry ladder, not a
static capability check: the WebM blob is used when that attempt succeeds
with size over 1000 bytes; otherwise the alternative method's result is used
when it succeeds; and when both fail the frames are packaged by
`createFramesZip`.  A failed tier therefore never moves the job to `error` —
a lower tier is retried within the same job. -/
theorem createVideoFromFrames_fallback_spec :
    ∀ (frames : List String) (webmAttempt altAttempt : Except String VideoBlob),
      (∀ b, webmAttempt = Except.ok b → 1000 < b.size →
        createVideoFromFrames frames webmAttempt altAttempt = b) ∧
      (∀ b b', webmAttempt = Except.ok b → b.size ≤ 1000 →
        altAttempt = Except.ok b' →
        createVideoFromFrames frames webmAttempt altAttempt = b') ∧
      (∀ e b', webmAttempt = Except.error e → altAttempt = Except.ok b' →
        createVideoFromFrames frames webmAttempt altAttempt = b') ∧
      (∀ b e', webmAttempt = Except.ok b → b.size ≤ 1000 →
        altAttempt = Except.error e' →
        createVideoFromFrames frames webmAttempt altAttempt
          = createFramesZip frames) ∧
      (∀ e e', webmAttempt = Except.error e → altAttempt = Except.error e' →
        createVideoFromFrames frames webmAttempt altAttempt
          = createFramesZip frames) := by
  intro frames webmAttempt altAttempt
  refine ⟨?_, ?_, ?_, ?_, ?_⟩
  · intro b hw hb
    subst hw
    simp [createVideoFromFrames, hb]
  · intro b b' hw hb ha
    subst hw; subst ha
    simp [createVideoFromFrames, not_lt.2 hb]
  · intro e b' hw ha
    subst hw; subst ha
    simp [createVideoFromFrames]
  · intro b e' hw hb ha
    subst hw; subst ha
    simp [createVideoFromFrames, not_lt.2 hb]
  · intro e e' hw ha
    subst hw; subst ha
    simp [createVideoFromFrames]

theorem createVideoFromFrames_fallback_witness :
    (Except.ok { mime := "video/webm", size := 2048 }
        = (Except.ok { mime := "video/webm", size := 2048 }
            : Except String VideoBlob)) ∧
    (1000 < (2048 : ℕ)) ∧
    createVideoFromFrames ["f"]
        (Except.ok { mime := "video/webm", size := 2048 })
        (Except.error "unused")
      = { mime := "video/webm", size := 2048 } :=
  ⟨rfl, by norm_num,
   (createVideoFromFrames_fallback_spec ["f"]
      (Except.ok { mime := "video/webm", size := 2048 })
      (Except.error "unused")).1
     { mime := "video/webm", size := 2048 } rfl (by norm_num)⟩

lemma validEasing_linear : validEasing (fun t : ℚ => t) :=
  ⟨rfl, rfl, fun _ _ _ hst _ => hst⟩

lemma validEasing_easeInQuad : validEasing (fun t : ℚ => t * t) := by
  refine ⟨by norm_num, by norm_num, ?_⟩
  intro s t hs hst _
  dsimp only
  nlinarith

lemma validEasing_easeOutQuad : validEasing (fun t : ℚ => t * (2 - t)) := by
  refine ⟨by norm_num, by norm_num, ?_⟩
  intro s t hs hst ht
  dsimp only
  nlinarith [mul_nonneg (sub_nonneg.2 hst) (by linarith : (0:ℚ) ≤ 2 - s - t)]

lemma validEasing_easeInOutQuad :
    validEasing (fun t : ℚ => if t < 1/2 then 2 * t * t else -1 + (4 - 2 * t) * t) := by
  refine ⟨by norm_num, by norm_num, ?_⟩
  intro s t hs hst ht
  dsimp only
  by_cases hs2 : s < 1/2 <;> by_cases ht2 : t < 1/2 <;>
    simp only [hs2, ht2, if_true, if_false]
  · nlinarith
  · nlinarith [mul_nonneg (by linarith : (0:ℚ) ≤ 1/2 - s)
                 (by linarith : (0:ℚ) ≤ 1/2 + s),
               mul_nonneg (by linarith : (0:ℚ) ≤ t - 1/2)
                 (by linarith : (0:ℚ) ≤ 3/2 - t)]
  · exact absurd (lt_of_le_of_lt hst ht2) hs2
  · nlinarith [mul_nonneg (sub_nonneg.2 hst) (by linarith : (0:ℚ) ≤ 2 - s - t)]

lemma validEasing_easeInCubic : validEasing (fun t : ℚ => t * t * t) := by
  refine ⟨by norm_num, by norm_num, ?_⟩
  intro s t hs hst _
  dsimp only
  have ht0 : 0 ≤ t := hs.trans hst
  nlinarith [mul_nonneg hs ht0, mul_nonneg ht0 ht0, mul_nonneg hs hs,
             sq_nonneg (t - s)]

lemma cube_le_cube (a b : ℚ) (hab : a ≤ b) : a * a * a ≤ b * b * b := by
  nlinarith [mul_nonneg (sub_nonneg.2 hab) (sq_nonneg (a + b)),
             mul_nonneg (sub_nonneg.2 hab) (sq_nonneg a),
             mul_nonneg (sub_nonneg.2 hab) (sq_nonneg b)]

lemma validEasing_easeOutCubic :
    validEasing (fun t : ℚ => (t - 1) * (t - 1) * (t - 1) + 1) := by
  refine ⟨by norm_num, by norm_num, ?_⟩
  intro s t _ hst _
  dsimp only
  have h := cube_le_cube (s - 1) (t - 1) (by linarith)
  linarith

lemma validEasing_easeInOutCubic :
    validEasing (fun t : ℚ => if t < 1/2 then 4 * t * t * t
                              else (t - 1) * (2 * t - 2) * (2 * t - 2) + 1) := by
  refine ⟨by norm_num, by norm_num, ?_⟩
  intro s t hs hst ht
  dsimp only
  by_cases hs2 : s < 1/2 <;> by_cases ht2 : t < 1/2 <;>
    simp only [hs2, ht2, if_true, if_false]
  · have h := cube_le_cube s t hst
    linarith
  · have h1 : 4 * (s * s * s) ≤ 1/2 := by
      have := cube_le_cube s (1/2) (by linarith)
      nlinarith
    have h2 : (-(1:ℚ)/2) * (-(1:ℚ)/2) * (-(1:ℚ)/2) ≤ (t - 1) * (t - 1) * (t - 1) :=
      cube_le_cube (-(1:ℚ)/2) (t - 1) (by linarith)
    nlinarith
  · exact absurd (lt_of_le_of_lt hst ht2) hs2
  · have h := cube_le_cube (s - 1) (t - 1) (by linarith)
    nlinarith

lemma getEasing_valid (name : String) : validEasing (getEasing name) := by
  unfold getEasing easingFunctions
  split_ifs <;> simp only [Option.getD_some, Option.getD_none] <;>
    first
      | exact validEasing_linear
      | exact validEasing_easeInQuad
      | exact validEasing_easeOutQuad
      | exact validEasing_easeInOutQuad
      | exact validEasing_easeInCubic
      | exact validEasing_easeOutCubic
      | exact validEasing_easeInOutCubic

lemma getEasing_unsupported (name : String)
    (h : name ∉ supportedEasingNames) : getEasing name = fun t : ℚ => t := by
  rw [supportedEasingNames] at h
  simp only [List.mem_cons, List.not_mem_nil, or_false, not_or] at h
  obtain ⟨h1, h2, h3, h4, h5, h6, h7, h8⟩ := h
  unfold getEasing easingFunctions
  rw [if_neg h1, if_neg h2, if_neg h3, if_neg h4, if_neg h5, if_neg h6,
      if_neg h7, if_neg h8]
  rfl

/-- C3: for every easing name, the function actually used maps `[0,1]` to
`[0,1]` with `f(0) = 0`, `f(1) = 1`, and is monotonically non-decreasing on
`[0,1]`; and every name outside the supported set falls back to the linear
function. -/
theorem easing_functions_spec :
    ∀ (name : String) (s t : ℚ),
      getEasing name 0 = 0 ∧ getEasing name 1 = 1 ∧
      (0 ≤ s → s ≤ t → t ≤ 1 → getEasing name s ≤ getEasing name t) ∧
      (0 ≤ t → t ≤ 1 → 0 ≤ getEasing name t ∧ getEasing name t ≤ 1) ∧
      (name ∉ supportedEasingNames → getEasing name = fun u : ℚ => u) := by
  intro name s t
  obtain ⟨h0, h1, hm⟩ := getEasing_valid name
  refine ⟨h0, h1, hm s t, fun ht0 ht1 => ⟨?_, ?_⟩, getEasing_unsupported name⟩
  · have := hm 0 t le_rfl ht0 ht1
    rwa [h0] at this
  · have := hm t 1 ht0 ht1 le_rfl
    rwa [h1] at this

theorem easing_functions_witness :
    getEasing "easeInQuad" 0 = 0 ∧ getEasing "easeInQuad" 1 = 1 ∧
    ((0:ℚ) ≤ 1/4 ∧ (1:ℚ)/4 ≤ 1/2 ∧ (1:ℚ)/2 ≤ 1) ∧
    getEasing "easeInQuad" (1/4) ≤ getEasing "easeInQuad" (1/2) ∧
    ("bogusEasing" ∉ supportedEasingNames) ∧
    getEasing "bogusEasing" = fun u : ℚ => u := by
  have h := easing_functions_spec "easeInQuad" (1/4) (1/2)
  have hmem : "bogusEasing" ∉ supportedEasingNames := by decide
  have h2 := easing_functions_spec "bogusEasing" 0 0
  exact ⟨h.1, h.2.1,
         ⟨by norm_num, by norm_num, by norm_num⟩,
         h.2.2.1 (by norm_num) (by norm_num) (by norm_num),
         hmem, h2.2.2.2.2 hmem⟩

lemma segLength_nonneg (p q : Pt) : 0 ≤ segLength p q :=
  Real.sqrt_nonneg _

lemma sumSegLengths_nil : sumSegLengths [] = 0 := rfl

lemma sumSegLengths_cons (s : Seg) (rest : List Seg) :
    sumSegLengths (s :: rest) = s.length + sumSegLengths rest := by
  simp [sumSegLengths]

lemma polylineLength_cons_cons (p q : Pt) (l : List Pt) :
    polylineLength (p :: q :: l) = segLength p q + polylineLength (q :: l) := rfl

lemma segsFrom_buildSegments (l : List Pt) :
    ∀ (p : Pt) (acc : ℝ), SegsFrom p (buildSegments (p :: l) acc) := by
  induction l with
  | nil => intro p acc; trivial
  | cons q rest ih =>
      intro p acc
      exact ⟨rfl, rfl, ih q _⟩

lemma segsFrom_sum_nonneg :
    ∀ (segs : List Seg) (p : Pt), SegsFrom p segs → 0 ≤ sumSegLengths segs := by
  intro segs
  induction segs with
  | nil => intro p _; simp [sumSegLengths]
  | cons s rest ih =>
      intro p hsf
      obtain ⟨_, hlen, hrest⟩ := hsf
      rw [sumSegLengths_cons, hlen]
      have := segLength_nonneg s.fro s.dst
      have := ih s.dst hrest
      linarith

lemma segLength_lerp (a b : Pt) (s : ℝ) (hs : 0 ≤ s) :
    segLength a (lerpPt a b s) = s * segLength a b := by
  unfold segLength lerpPt
  dsimp only
  rw [show (a.x + (b.x - a.x) * s - a.x) ^ 2 + (a.y + (b.y - a.y) * s - a.y) ^ 2
        = s ^ 2 * ((b.x - a.x) ^ 2 + (b.y - a.y) ^ 2) by ring]
  rw [Real.sqrt_mul (sq_nonneg s), Real.sqrt_sq hs]

lemma drawPathToLength_false_eq (seg : Seg) (rest : List Seg)
    (target current : ℝ) :
    drawPathToLength (seg :: rest) target current false
      = seg.fro :: drawPathToLength (seg :: rest) target current true := by
  simp only [drawPathToLength]
  by_cases hc : current + seg.length ≤ target <;> simp [hc]

lemma polylineLength_drawPathToLength :
    ∀ (segs : List Seg) (p : Pt) (target current : ℝ), SegsFrom p segs →
      current ≤ target → target ≤ current + sumSegLengths segs →
      polylineLength (p :: drawPathToLength segs target current true)
        = target - current := by
  intro segs
  induction segs with
  | nil =>
      intro p target current _ h1 h2
      rw [sumSegLengths_nil] at h2
      simp only [drawPathToLength, polylineLength]
      linarith
  | cons seg rest ih =>
      intro p target current hsf h1 h2
      obtain ⟨hfro, hlen, hrest⟩ := hsf
      rw [sumSegLengths_cons] at h2
      by_cases hc : current + seg.length ≤ target
      · simp only [drawPathToLength, if_pos hc, if_true, List.nil_append]
        rw [polylineLength_cons_cons]
        rw [ih seg.dst target (current + seg.length) hrest hc (by linarith)]
        rw [← hfro, ← hlen]
        ring
      · push_neg at hc
        have hlenpos : 0 < seg.length := by linarith
        simp only [drawPathToLength, if_neg (not_le.2 hc), if_true, List.nil_append]
        rw [polylineLength_cons_cons]
        have hz : polylineLength [lerpPt seg.fro seg.dst
            ((target - current) / seg.length)] = 0 := rfl
        rw [hz, ← hfro]
        rw [segLength_lerp seg.fro seg.dst _
              (div_nonneg (by linarith) hlenpos.le)]
        rw [← hlen]
        field_simp

lemma drawPathToLength_full :
    ∀ (segs : List Seg) (p : Pt) (target current : ℝ), SegsFrom p segs →
      current + sumSegLengths segs ≤ target →
      drawPathToLength segs target current true = segs.map Seg.dst := by
  intro segs
  induction segs with
  | nil => intro p target current _ _; rfl
  | cons seg rest ih =>
      intro p target current hsf h
      obtain ⟨hfro, hlen, hrest⟩ := hsf
      rw [sumSegLengths_cons] at h
      have hrnn : 0 ≤ sumSegLengths rest := segsFrom_sum_nonneg rest seg.dst hrest
      have hc : current + seg.length ≤ target := by linarith
      simp only [drawPathToLength, if_pos hc, if_true, List.nil_append, List.map]
      rw [ih seg.dst target (current + seg.length) hrest (by linarith)]

lemma buildSegments_map_dst (l : List Pt) :
    ∀ (p : Pt) (acc : ℝ), (buildSegments (p :: l) acc).map Seg.dst = l := by
  induction l with
  | nil => intro p acc; rfl
  | cons q rest ih =>
      intro p acc
      simp only [buildSegments, List.map]
      rw [ih q]

lemma stroke_cases (mt : MapTransform) (w0 w1 : Pt) (ws : List Pt) (t : ℝ)
    (ht : 0 < t) :
    drawRouteStroke mt (w0 :: w1 :: ws) t
      = transformWaypoint mt w0
          :: drawPathToLength
              (buildSegments
                (transformWaypoint mt w0 :: transformWaypoint mt w1
                  :: ws.map (transformWaypoint mt)) 0)
              (sumSegLengths
                (buildSegments
                  (transformWaypoint mt w0 :: transformWaypoint mt w1
                    :: ws.map (transformWaypoint mt)) 0) * t)
              0 true := by
  rw [drawRouteStroke]
  rw [if_neg (by simp : ¬ (w0 :: w1 :: ws).length < 2)]
  simp only [List.map]
  rw [if_pos ht]
  rw [show buildSegments
        (transformWaypoint mt w0 :: transformWaypoint mt w1
          :: ws.map (transformWaypoint mt)) 0
      = { start := 0,
          length := segLength (transformWaypoint mt w0) (transformWaypoint mt w1),
          fro := transformWaypoint mt w0, dst := transformWaypoint mt w1 }
        :: buildSegments
            (transformWaypoint mt w1 :: ws.map (transformWaypoint mt))
            (0 + segLength (transformWaypoint mt w0) (transformWaypoint mt w1))
      from rfl]
  rw [drawPathToLength_false_eq]

lemma sqrt_one_hundred : Real.sqrt 100 = 10 := by
  rw [show (100 : ℝ) = 10 ^ 2 by norm_num]
  exact Real.sqrt_sq (by norm_num)

lemma segLength_scenario_first :
    segLength { x := 0, y := 0 } { x := 10, y := 0 } = 10 := by
  rw [segLength]
  norm_num [sqrt_one_hundred]

lemma segLength_scenario_second :
    segLength { x := 10, y := 0 } { x := 10, y := 10 } = 10 := by
  rw [segLength]
  norm_num [sqrt_one_hundred]

lemma segLength_scenario_degenerate :
    segLength { x := 10, y := 0 } { x := 10, y := 0 } = 0 := by
  rw [segLength]
  norm_num

lemma scenario_stroke_eval :
    drawRouteStroke { scale := 1, offsetX := 0, offsetY := 0 }
        [{ x := 0, y := 0 }, { x := 10, y := 0 }, { x := 10, y := 10 }] (1/2)
      = [{ x := 0, y := 0 }, { x := 10, y := 0 }, { x := 10, y := 0 }] := by
  have hmap : ([{ x := 0, y := 0 }, { x := 10, y := 0 },
      { x := 10, y := 10 }] : List Pt).map
        (transformWaypoint { scale := 1, offsetX := 0, offsetY := 0 })
      = [{ x := 0, y := 0 }, { x := 10, y := 0 }, { x := 10, y := 10 }] := by
    simp [transformWaypoint]
  rw [drawRouteStroke]
  rw [if_neg (by simp : ¬ ([{ x := 0, y := 0 }, { x := 10, y := 0 },
        { x := 10, y := 10 }] : List Pt).length < 2)]
  rw [hmap]
  rw [if_pos (by norm_num : (0:ℝ) < 1/2)]
  rw [show buildSegments ([{ x := 0, y := 0 }, { x := 10, y := 0 },
        { x := 10, y := 10 }] : List Pt) 0
      = [{ start := 0, length := segLength { x := 0, y := 0 } { x := 10, y := 0 },
           fro := { x := 0, y := 0 }, dst := { x := 10, y := 0 } },
         { start := 0 + segLength { x := 0, y := 0 } { x := 10, y := 0 },
           length := segLength { x := 10, y := 0 } { x := 10, y := 10 },
           fro := { x := 10, y := 0 }, dst := { x := 10, y := 10 } }] from rfl]
  rw [segLength_scenario_first, segLength_scenario_second]
  rw [show sumSegLengths
        [{ start := 0, length := 10, fro := { x := 0, y := 0 },
           dst := ({ x := 10, y := 0 } : Pt) },
         { start := 0 + 10, length := 10, fro := { x := 10, y := 0 },
           dst := { x := 10, y := 10 } }] = 20 by
      simp [sumSegLengths]
      norm_num]
  rw [show (20 : ℝ) * (1/2) = 10 by norm_num]
  rw [drawPathToLength]
  rw [if_pos (by norm_num : (0:ℝ) + 10 ≤ 10)]
  rw [drawPathToLength]
  rw [if_neg (by norm_num : ¬ ((0:ℝ) + 10 + 10 ≤ 10))]
  simp only [List.nil_append, List.cons_append, if_false, if_true]
  norm_num [lerpPt]

/-- C2: for every route with at least two waypoints and local progress
`t ∈ [0,1]`, the length of the stroke drawn by `drawPathToLength` equals
`t` times the route's total path length; at `t = 0` nothing is drawn and at
`t = 1` the full polyline is drawn.  In particular, the waypoints
`[(0,0), (10,0), (10,10)]` at `t = 1/2` produce a stroke ending exactly at
`(10,0)` — exactly the first segment, of length `10 = (1/2) * 20`. -/
theorem drawRouteStroke_length_spec :
    (∀ (mt : MapTransform) (waypoints : List Pt) (t : ℝ),
        2 ≤ waypoints.length → 0 ≤ t → t ≤ 1 →
        polylineLength (drawRouteStroke mt waypoints t)
            = t * routeTotalLength mt waypoints ∧
        (t = 0 → drawRouteStroke mt waypoints t = []) ∧
        (t = 1 → drawRouteStroke mt waypoints t
            = waypoints.map (transformWaypoint mt))) ∧
    drawRouteStroke { scale := 1, offsetX := 0, offsetY := 0 }
        [{ x := 0, y := 0 }, { x := 10, y := 0 }, { x := 10, y := 10 }] (1/2)
      = [{ x := 0, y := 0 }, { x := 10, y := 0 }, { x := 10, y := 0 }] ∧
    polylineLength
        (drawRouteStroke { scale := 1, offsetX := 0, offsetY := 0 }
          [{ x := 0, y := 0 }, { x := 10, y := 0 }, { x := 10, y := 10 }] (1/2))
      = 10 := by
  have huniv : ∀ (mt : MapTransform) (waypoints : List Pt) (t : ℝ),
      2 ≤ waypoints.length → 0 ≤ t → t ≤ 1 →
      polylineLength (drawRouteStroke mt waypoints t)
          = t * routeTotalLength mt waypoints ∧
      (t = 0 → drawRouteStroke mt waypoints t = []) ∧
      (t = 1 → drawRouteStroke mt waypoints t
          = waypoints.map (transformWaypoint mt)) := by
    intro mt waypoints t hlen ht0 ht1
    match waypoints, hlen with
    | w0 :: w1 :: ws, _ =>
      set f := transformWaypoint mt with hf
      set segs := buildSegments (f w0 :: f w1 :: ws.map f) 0 with hsegs
      have hsf : SegsFrom (f w0) segs := segsFrom_buildSegments _ (f w0) 0
      have htotnn : 0 ≤ sumSegLengths segs := segsFrom_sum_nonneg segs (f w0) hsf
      have hroute : routeTotalLength mt (w0 :: w1 :: ws) = sumSegLengths segs := by
        rw [routeTotalLength, hsegs]
        simp only [List.map]
      rcases lt_or_eq_of_le ht0 with htpos | htzero
      · have hstroke := stroke_cases mt w0 w1 ws t htpos
        refine ⟨?_, fun h => absurd (h ▸ htpos) (lt_irrefl 0), fun h1 => ?_⟩
        · rw [hstroke]
          rw [polylineLength_drawPathToLength segs (f w0)
                (sumSegLengths segs * t) 0 hsf
                (mul_nonneg htotnn ht0)
                (by rw [zero_add]; exact mul_le_of_le_one_right htotnn ht1)]
          rw [hroute]
          ring
        · subst h1
          rw [hstroke]
          rw [drawPathToLength_full segs (f w0) (sumSegLengths segs * 1) 0 hsf
                (by rw [zero_add, mul_one])]
          rw [hsegs, buildSegments_map_dst]
          simp [List.map]
      · refine ⟨?_, fun _ => ?_, fun h1 => absurd (htzero.trans h1) (by norm_num)⟩
        · have hstroke : drawRouteStroke mt (w0 :: w1 :: ws) t = [] := by
            rw [drawRouteStroke]
            rw [if_neg (by simp : ¬ (w0 :: w1 :: ws).length < 2)]
            rw [if_neg (by rw [← htzero]; exact lt_irrefl 0)]
          rw [hstroke, ← htzero]
          simp [polylineLength]
        · rw [drawRouteStroke]
          rw [if_neg (by simp : ¬ (w0 :: w1 :: ws).length < 2)]
          rw [if_neg (by rw [← htzero]; exact lt_irrefl 0)]
  refine ⟨huniv, scenario_stroke_eval, ?_⟩
  rw [scenario_stroke_eval, polylineLength_cons_cons, polylineLength_cons_cons,
      segLength_scenario_first, segLength_scenario_degenerate]
  norm_num [polylineLength]

theorem drawRouteStroke_length_witness :
    2 ≤ ([{ x := 0, y := 0 }, { x := 10, y := 0 },
          { x := 10, y := 10 }] : List Pt).length ∧
    ((0:ℝ) ≤ 1 ∧ (1:ℝ) ≤ 1) ∧
    polylineLength
        (drawRouteStroke { scale := 1, offsetX := 0, offsetY := 0 }
          [{ x := 0, y := 0 }, { x := 10, y := 0 }, { x := 10, y := 10 }] 1)
      = 1 * routeTotalLength { scale := 1, offsetX := 0, offsetY := 0 }
          [{ x := 0, y := 0 }, { x := 10, y := 0 }, { x := 10, y := 10 }] :=
  ⟨by norm_num, ⟨by norm_num, le_rfl⟩,
   (drawRouteStroke_length_spec.1 { scale := 1, offsetX := 0, offsetY := 0 }
      [{ x := 0, y := 0 }, { x := 10, y := 0 }, { x := 10, y := 10 }] 1
      (by norm_num) (by norm_num) le_rfl).1⟩

end RoutePlanner
